import Mathlib

/-!
Verification of the multipart-upload HTTP handler (`src/main.go`):
a shallow embedding of `FileHandler` and its chunked upload loop.

The Go handler:
* rejects non-POST requests with 405;
* rejects content types not starting with `image/` or `video/` with 415;
* rejects declared content lengths above `maxContentSize` with 413;
* derives a filename extension from the content type;
* initiates a multipart upload (`CreateMultipartUpload`), then loops:
  `io.CopyN(&buffer, r.Body, minUploadPartSize)` into a buffer, uploads it
  as the next part (`UploadPart`), records the returned ETag, and stops after
  the iteration in which the copy returned 0 bytes or `io.EOF`;
* finally calls `CompleteMultipartUpload` with the collected parts and
  responds 201 with the object key.

Bytes are modelled as `Nat`, byte streams as `List Nat`. The S3 backend is an
oracle (`Backend`) saying which calls succeed and which ETags parts get; the
observable behaviour of the handler is the response status plus the trace of
backend calls (`Event`). The Go `int32` part counter is modelled as `Nat`:
within the 2500 MiB size cap at most 501 parts arise, far below overflow.
-/

/-- Constant `maxContentSize int64 = 1024 * 1024 * 2500` (bytes). Declared
lengths are `int64` in Go (`r.ContentLength`), negative when unknown, hence
`Int`. -/
def maxContentSize : Int := 1024 * 1024 * 2500

/-- Constant `minUploadPartSize int64 = 1024 * 1024 * 5` (bytes): the chunk
size of the upload loop.  Always a count of bytes to copy, hence `Nat`. -/
def minUploadPartSize : Nat := 1024 * 1024 * 5

/-- Model of `types.CompletedPart`: the record appended after each successful
`UploadPart` call (ETag + part number), sent to `CompleteMultipartUpload`. -/
structure CompletedPart where
  etag : String
  partNumber : Nat
deriving DecidableEq, Repr

/-- One backend (S3) call made by the handler, with the data it carried. -/
inductive Event where
  /-- Call of `CreateMultipartUpload` with the generated object key and content type. -/
  | createMultipartUpload (key : String) (contentType : String)
  /-- Call of `UploadPart` with the part number and the bytes of the chunk. -/
  | uploadPart (partNumber : Nat) (content : List Nat)
  /-- Call of `CompleteMultipartUpload` with the collected part records. -/
  | completeMultipartUpload (parts : List CompletedPart)
deriving DecidableEq, Repr

/-- Oracle for the S3 backend: which calls succeed, and the ETag returned for
each part number.  `location` is the URL returned by the completion call. -/
structure Backend where
  createOk : Bool
  uploadPartOk : Nat → Bool
  etag : Nat → String
  completeOk : Bool
  location : String

/-- The request data `FileHandler` inspects: method, `Content-Type` header,
declared `ContentLength` (negative when unknown), and the body bytes. -/
structure Request where
  method : String
  contentType : String
  contentLength : Int
  body : List Nat

/-- Outcome of one handler run: HTTP status, trace of backend calls in order,
and the object key of the 201 response body (`none` on any non-201 path). -/
structure HandlerResult where
  status : Nat
  events : List Event
  responseKey : Option String
deriving DecidableEq, Repr

/-- The anonymous `filenameExtension` function (lines 52–73): a fixed
content-type-to-extension table.  Note the source has `case "video/mp4 "`
(trailing space), reproduced verbatim. -/
def filenameExtension (contentType : String) : String :=
  match contentType with
  | "image/gif" => ".gif"
  | "image/jpeg" => ".jpeg"
  | "image/png" => ".png"
  | "image/tiff" => ".tiff"
  | "video/quicktime" => ".mov"
  | "video/mpeg" => ".mpeg"
  | "video/mp4 " => ".mp4"
  | "video/webm" => ".webm"
  | _ => ""

/-- Model of Go `strings.HasPrefix s pre`: `pre` is a prefix of `s`, here on
the character sequences of the strings. -/
def hasPrefix (s pre : String) : Bool := pre.data.isPrefixOf s.data

/-- Model of Go `strings.HasSuffix s suf` (used only to state properties of
the generated object keys), on the character sequences of the strings. -/
def hasSuffix (s suf : String) : Bool := suf.data.isSuffixOf s.data

/-- The upload loop (lines 111–153).  Per iteration, `io.CopyN(&buffer,
r.Body, chunk)` moves `min chunk |body|` bytes into the buffer and yields
`io.EOF` exactly when fewer than `chunk` bytes were available; `lastPart` is
set when 0 bytes were copied or `io.EOF` was seen, i.e. exactly when
`min chunk |body| = 0 ∨ |body| < chunk`.  The buffered bytes are uploaded as
part `p` in every iteration, including the last (possibly empty) one.
Returns the completed parts and the trace of `UploadPart` calls, or, when an
`UploadPart` call fails, the trace up to and including the failed call. -/
def uploadLoop (be : Backend) (chunk : Nat) (body : List Nat) (p : Nat) :
    Except (List Event) (List CompletedPart × List Event) :=
  if be.uploadPartOk p then
    if h : min chunk body.length = 0 ∨ body.length < chunk then
      -- lastPart: this (short or empty) chunk is uploaded and the loop exits
      .ok ([⟨be.etag p, p⟩], [.uploadPart p (body.take chunk)])
    else
      match uploadLoop be chunk (body.drop chunk) (p + 1) with
      | .ok (ps, evs) =>
        .ok (⟨be.etag p, p⟩ :: ps, .uploadPart p (body.take chunk) :: evs)
      | .error evs => .error (.uploadPart p (body.take chunk) :: evs)
  else .error [.uploadPart p (body.take chunk)]
termination_by body.length
decreasing_by
  simp only [not_or, Nat.min_eq_zero_iff, not_lt] at h
  simp only [List.length_drop]
  omega

/-- Model of `FileHandler` (lines 38–194), as a function of the backend oracle, the
freshly generated UUID string, and the request.  The JSON marshalling of the
response `Message` cannot fail for this payload, so the serialization-error
branch (lines 178–182) is unreachable and not modelled. -/
def FileHandler (be : Backend) (uuid : String) (req : Request) : HandlerResult :=
  if req.method = "POST" then
    if ¬hasPrefix req.contentType "image/" ∧ ¬hasPrefix req.contentType "video/" then
      ⟨415, [], none⟩
    else if req.contentLength > maxContentSize then
      ⟨413, [], none⟩
    else if ¬be.createOk then
      ⟨500, [.createMultipartUpload (uuid ++ filenameExtension req.contentType)
               req.contentType], none⟩
    else
      match uploadLoop be minUploadPartSize req.body 1 with
      | .error evs =>
        ⟨500, .createMultipartUpload (uuid ++ filenameExtension req.contentType)
                req.contentType :: evs, none⟩
      | .ok (parts, evs) =>
        if be.completeOk then
          ⟨201, .createMultipartUpload (uuid ++ filenameExtension req.contentType)
                  req.contentType :: evs ++ [.completeMultipartUpload parts],
           some (uuid ++ filenameExtension req.contentType)⟩
        else
          ⟨500, .createMultipartUpload (uuid ++ filenameExtension req.contentType)
                  req.contentType :: evs ++ [.completeMultipartUpload parts], none⟩
  else ⟨405, [], none⟩

/-- The `UploadPart` calls in a trace: `(partNumber, content)` pairs. -/
def uploadPartCalls (evs : List Event) : List (Nat × List Nat) :=
  evs.filterMap fun e =>
    match e with
    | .uploadPart p c => some (p, c)
    | _ => none

/-- The `CompleteMultipartUpload` calls in a trace: their part-record lists. -/
def completeCalls (evs : List Event) : List (List CompletedPart) :=
  evs.filterMap fun e =>
    match e with
    | .completeMultipartUpload ps => some ps
    | _ => none

/-- The part records the loop accumulates when parts `p, p+1, …` all
succeed: numbers `p, …, p+m-1`, each with the ETag the backend returns. -/
def loopParts (be : Backend) (p m : Nat) : List CompletedPart :=
  (List.range' p m).map fun k => ⟨be.etag k, k⟩

/-- The `UploadPart` trace of a run of the loop over `body` starting at part
`p` in which every call succeeds: one call per iteration, carrying the
successive `chunk`-sized slices of `body`. -/
def chunkEvents (chunk : Nat) (body : List Nat) (p : Nat) : List Event :=
  if min chunk body.length = 0 ∨ body.length < chunk then
    [.uploadPart p (body.take chunk)]
  else
    .uploadPart p (body.take chunk) :: chunkEvents chunk (body.drop chunk) (p + 1)
termination_by body.length
decreasing_by
  rename_i h
  simp only [not_or, Nat.min_eq_zero_iff, not_lt] at h
  simp only [List.length_drop]
  omega

/-! ## Concrete fixtures -/

/-- A backend on which every call succeeds; the ETag of part `k` is `"etag" ++ k`. -/
def beAllOk : Backend :=
  ⟨true, fun _ => true, fun k => "etag" ++ toString k, true, "http://bucket/object"⟩

/-- A backend on which creation succeeds but every `UploadPart` call fails. -/
def bePartsFail : Backend :=
  ⟨true, fun _ => false, fun k => "etag" ++ toString k, true, "http://bucket/object"⟩

/-- Request with a 5 MiB body (an exact multiple of the chunk size), `image/png`. -/
def reqMultiple : Request := ⟨"POST", "image/png", 5242880, List.replicate 5242880 0⟩

/-- Request with a 12 MiB body, `image/png`. -/
def req12MiB : Request := ⟨"POST", "image/png", 12582912, List.replicate 12582912 0⟩

/-- Empty body, `video/mp4`. -/
def reqEmptyMp4 : Request := ⟨"POST", "video/mp4", 0, []⟩

/-- Empty body, `image/png`. -/
def reqEmptyPng : Request := ⟨"POST", "image/png", 0, []⟩

/-- Empty body, `image/gif`. -/
def reqEmptyGif : Request := ⟨"POST", "image/gif", 0, []⟩

/-- A `text/plain` POST. -/
def reqText : Request := ⟨"POST", "text/plain", 0, []⟩

/-- A `text/plain` POST declaring a length above `maxContentSize`. -/
def reqBigText : Request := ⟨"POST", "text/plain", 1024 * 1024 * 2500 + 1, []⟩

/-- An `image/png` POST declaring a length above `maxContentSize`. -/
def reqBigImage : Request := ⟨"POST", "image/png", 1024 * 1024 * 2500 + 1, []⟩

/-- An `image/jpeg` POST with unknown (negative) declared length. -/
def reqUnknownLen : Request := ⟨"POST", "image/jpeg", -1, []⟩

/-- A GET request. -/
def reqGet : Request := ⟨"GET", "image/png", 0, []⟩

/-- The single part record of a successful empty-body upload on `beAllOk`. -/
def partsGif : List CompletedPart := [⟨"etag1", 1⟩]

/-! ## Lemmas about the upload loop -/

/-- With a positive chunk size, the exit condition of the loop (`0` bytes copied or
`io.EOF`) holds exactly when fewer than `chunk` bytes remained. -/
theorem lastPart_iff {chunk len : Nat} (hc : 0 < chunk) :
    (min chunk len = 0 ∨ len < chunk) ↔ len < chunk := by
  constructor
  · rintro (h | h)
    · rcases Nat.min_eq_zero_iff.mp h with h' | h' <;> omega
    · exact h
  · exact Or.inr

/-- A body of `n` bytes is uploaded in exactly `n / chunk + 1` parts: full
chunks while at least `chunk` bytes remain, plus one final short part
(which is empty exactly when `chunk` divides `n`). -/
theorem chunkEvents_length (chunk : Nat) (hc : 0 < chunk) (body : List Nat) (p : Nat) :
    (chunkEvents chunk body p).length = body.length / chunk + 1 := by
  induction body, p using chunkEvents.induct chunk with
  | case1 body p h =>
    have hlt : body.length < chunk := (lastPart_iff hc).mp h
    rw [chunkEvents, if_pos h]
    simp [Nat.div_eq_of_lt hlt]
  | case2 body p h ih =>
    have hge : chunk ≤ body.length := by
      rw [lastPart_iff hc] at h; omega
    rw [chunkEvents, if_neg h, List.length_cons, ih, List.length_drop,
      Nat.div_eq_sub_div hc hge]

/-- Every event the loop emits is an `UploadPart` call. -/
theorem chunkEvents_shape (chunk : Nat) (body : List Nat) (p : Nat) :
    ∀ e ∈ chunkEvents chunk body p, ∃ q c, e = Event.uploadPart q c := by
  induction body, p using chunkEvents.induct chunk with
  | case1 body p h =>
    rw [chunkEvents, if_pos h]
    intro e he
    exact ⟨p, body.take chunk, by simpa using he⟩
  | case2 body p h ih =>
    rw [chunkEvents, if_neg h]
    intro e he
    rcases List.mem_cons.mp he with rfl | he
    · exact ⟨p, body.take chunk, rfl⟩
    · exact ih e he

/-- The part numbers of the `UploadPart` calls of the loop are consecutive
starting at `p`. -/
theorem uploadPartCalls_chunkEvents_fst (chunk : Nat) (body : List Nat) (p : Nat) :
    (uploadPartCalls (chunkEvents chunk body p)).map Prod.fst =
      List.range' p (chunkEvents chunk body p).length := by
  induction body, p using chunkEvents.induct chunk with
  | case1 body p h =>
    rw [chunkEvents, if_pos h]
    simp [uploadPartCalls]
  | case2 body p h ih =>
    rw [chunkEvents, if_neg h]
    simp only [uploadPartCalls, List.filterMap_cons, List.map_cons, List.length_cons,
      List.range'_succ]
    exact congrArg (p :: ·) ih

/-- When every attempted `UploadPart` call succeeds, the loop returns the
part records `p, …, p + n/chunk` with their ETags, and its trace is
`chunkEvents`. -/
theorem uploadLoop_ok (be : Backend) (chunk : Nat) (hc : 0 < chunk) (body : List Nat) (p : Nat)
    (hok : ∀ k, p ≤ k → k < p + (body.length / chunk + 1) → be.uploadPartOk k = true) :
    uploadLoop be chunk body p =
      Except.ok (loopParts be p (body.length / chunk + 1), chunkEvents chunk body p) := by
  induction body, p using uploadLoop.induct be chunk with
  | case1 body p hp h =>
    have hlt : body.length < chunk := (lastPart_iff hc).mp h
    have hrun : uploadLoop be chunk body p =
        Except.ok ([⟨be.etag p, p⟩], [.uploadPart p (body.take chunk)]) := by
      rw [uploadLoop.eq_def, if_pos hp, dif_pos h]
    rw [hrun, chunkEvents, if_pos h]
    simp [loopParts, Nat.div_eq_of_lt hlt]
  | case2 body p hp h ps evs heq ih =>
    have hge : chunk ≤ body.length := by rw [lastPart_iff hc] at h; omega
    have hdiv : body.length / chunk = (body.length - chunk) / chunk + 1 :=
      Nat.div_eq_sub_div hc hge
    have ih' := ih (fun k hk1 hk2 => by
      rw [List.length_drop] at hk2
      refine hok k (by omega) ?_
      rw [hdiv]
      omega)
    rw [heq] at ih'
    have hpair : ps = loopParts be (p + 1) ((body.drop chunk).length / chunk + 1) ∧
        evs = chunkEvents chunk (body.drop chunk) (p + 1) := by
      simpa [Except.ok.injEq, Prod.mk.injEq] using ih'
    have hm : body.length / chunk + 1 = ((body.drop chunk).length / chunk + 1) + 1 := by
      rw [List.length_drop, hdiv]
    have hL : loopParts be p (body.length / chunk + 1) =
        ⟨be.etag p, p⟩ :: loopParts be (p + 1) ((body.drop chunk).length / chunk + 1) := by
      rw [hm, loopParts, loopParts, List.range'_succ, List.map_cons]
    have hE : chunkEvents chunk body p =
        Event.uploadPart p (body.take chunk) :: chunkEvents chunk (body.drop chunk) (p + 1) := by
      rw [chunkEvents]
      exact if_neg h
    have hrun : uploadLoop be chunk body p =
        Except.ok (⟨be.etag p, p⟩ :: ps, .uploadPart p (body.take chunk) :: evs) := by
      rw [uploadLoop.eq_def, if_pos hp, dif_neg h, heq]
    rw [hrun, hL, hE, hpair.1, hpair.2]
  | case3 body p hp h evs heq ih =>
    have hge : chunk ≤ body.length := by rw [lastPart_iff hc] at h; omega
    have hdiv : body.length / chunk = (body.length - chunk) / chunk + 1 :=
      Nat.div_eq_sub_div hc hge
    have ih' := ih (fun k hk1 hk2 => by
      rw [List.length_drop] at hk2
      refine hok k (by omega) ?_
      rw [hdiv]
      omega)
    rw [heq] at ih'
    exact absurd ih' (by simp)
  | case4 body p hp =>
    exact absurd (hok p (le_refl p) (Nat.lt_add_of_pos_right (Nat.succ_pos _))) hp

/-- The first element of the loop trace is the `UploadPart` call for the
first chunk. -/
theorem chunkEvents_take_one (chunk : Nat) (body : List Nat) (p : Nat) :
    (chunkEvents chunk body p).take 1 = [Event.uploadPart p (body.take chunk)] := by
  rw [chunkEvents]
  split <;> rfl

/-- When parts `p, …, k-1` succeed and part `k` (still within the
`n/chunk + 1` parts the body yields) fails, the loop stops with the trace of parts
`p, …, k` and no completion: the failed call is the last backend call. -/
theorem uploadLoop_error (be : Backend) (chunk : Nat) (hc : 0 < chunk) (body : List Nat)
    (p k : Nat) (hpk : p ≤ k) (hreach : k < p + (body.length / chunk + 1))
    (hok : ∀ j, p ≤ j → j < k → be.uploadPartOk j = true)
    (hfail : be.uploadPartOk k = false) :
    uploadLoop be chunk body p =
      Except.error ((chunkEvents chunk body p).take (k + 1 - p)) := by
  induction body, p using uploadLoop.induct be chunk with
  | case1 body p hp h =>
    have hlt : body.length < chunk := (lastPart_iff hc).mp h
    have hdiv0 : body.length / chunk = 0 := Nat.div_eq_of_lt hlt
    have hkp : k = p := by omega
    rw [hkp] at hfail
    simp [hfail] at hp
  | case2 body p hp h ps evs heq ih =>
    have hge : chunk ≤ body.length := by rw [lastPart_iff hc] at h; omega
    have hdiv : body.length / chunk = (body.length - chunk) / chunk + 1 :=
      Nat.div_eq_sub_div hc hge
    have hplt : p < k := by
      rcases Nat.lt_or_ge p k with hlt | hge'
      · exact hlt
      · have hkp : k = p := by omega
        rw [hkp] at hfail
        simp [hfail] at hp
    have ih' := ih (by omega)
      (by
        rw [List.length_drop] at *
        rw [hdiv] at hreach
        omega)
      (fun j hj1 hj2 => hok j (by omega) hj2)
    rw [heq] at ih'
    exact absurd ih' (by simp)
  | case3 body p hp h evs heq ih =>
    have hge : chunk ≤ body.length := by rw [lastPart_iff hc] at h; omega
    have hdiv : body.length / chunk = (body.length - chunk) / chunk + 1 :=
      Nat.div_eq_sub_div hc hge
    have hplt : p < k := by
      rcases Nat.lt_or_ge p k with hlt | hge'
      · exact hlt
      · have hkp : k = p := by omega
        rw [hkp] at hfail
        simp [hfail] at hp
    have ih' := ih (by omega)
      (by
        rw [List.length_drop] at *
        rw [hdiv] at hreach
        omega)
      (fun j hj1 hj2 => hok j (by omega) hj2)
    rw [heq] at ih'
    have hevs : evs = (chunkEvents chunk (body.drop chunk) (p + 1)).take (k + 1 - (p + 1)) := by
      simpa using ih'
    have hE : chunkEvents chunk body p =
        Event.uploadPart p (body.take chunk) :: chunkEvents chunk (body.drop chunk) (p + 1) := by
      rw [chunkEvents]
      exact if_neg h
    have hrun : uploadLoop be chunk body p =
        Except.error (.uploadPart p (body.take chunk) :: evs) := by
      rw [uploadLoop.eq_def, if_pos hp, dif_neg h, heq]
    rw [hrun, hE, hevs]
    have hsub : k + 1 - p = (k + 1 - (p + 1)) + 1 := by omega
    rw [hsub, List.take_succ_cons]
  | case4 body p hp =>
    have hkp : k = p := by
      rcases Nat.lt_or_ge p k with hlt | hge'
      · exact absurd (hok p (le_refl p) hlt) hp
      · omega
    have hrun : uploadLoop be chunk body p =
        Except.error [.uploadPart p (body.take chunk)] := by
      rw [uploadLoop.eq_def, if_neg hp]
    rw [hrun, hkp, Nat.add_sub_cancel_left, chunkEvents_take_one]

/-- Whatever the backend does, every event the loop emits — on success or on
failure — is an `UploadPart` call (the loop itself never initiates or
completes an upload). -/
theorem uploadLoop_trace_shape (be : Backend) (chunk : Nat) (body : List Nat) (p : Nat) :
    (∀ ps evs, uploadLoop be chunk body p = Except.ok (ps, evs) →
      ∀ e ∈ evs, ∃ q c, e = Event.uploadPart q c) ∧
    (∀ evs, uploadLoop be chunk body p = Except.error evs →
      ∀ e ∈ evs, ∃ q c, e = Event.uploadPart q c) := by
  induction body, p using uploadLoop.induct be chunk with
  | case1 body p hp h =>
    have hrun : uploadLoop be chunk body p =
        Except.ok ([⟨be.etag p, p⟩], [.uploadPart p (body.take chunk)]) := by
      rw [uploadLoop.eq_def, if_pos hp, dif_pos h]
    constructor
    · intro ps evs heq e he
      rw [hrun] at heq
      obtain ⟨-, rfl⟩ : ps = _ ∧ evs = _ := by simpa using heq.symm
      exact ⟨p, body.take chunk, by simpa using he⟩
    · intro evs heq
      rw [hrun] at heq
      exact absurd heq (by simp)
  | case2 body p hp h ps evs heq ih =>
    have hrun : uploadLoop be chunk body p =
        Except.ok (⟨be.etag p, p⟩ :: ps, .uploadPart p (body.take chunk) :: evs) := by
      rw [uploadLoop.eq_def, if_pos hp, dif_neg h, heq]
    constructor
    · intro ps' evs' heq' e he
      rw [hrun] at heq'
      obtain ⟨-, rfl⟩ : ps' = _ ∧ evs' = _ := by simpa using heq'.symm
      rcases List.mem_cons.mp he with rfl | he'
      · exact ⟨p, body.take chunk, rfl⟩
      · exact ih.1 ps evs heq e he'
    · intro evs' heq'
      rw [hrun] at heq'
      exact absurd heq' (by simp)
  | case3 body p hp h evs heq ih =>
    have hrun : uploadLoop be chunk body p =
        Except.error (.uploadPart p (body.take chunk) :: evs) := by
      rw [uploadLoop.eq_def, if_pos hp, dif_neg h, heq]
    constructor
    · intro ps' evs' heq'
      rw [hrun] at heq'
      exact absurd heq' (by simp)
    · intro evs' heq' e he
      rw [hrun] at heq'
      obtain rfl : evs' = _ := by simpa using heq'.symm
      rcases List.mem_cons.mp he with rfl | he'
      · exact ⟨p, body.take chunk, rfl⟩
      · exact ih.2 evs heq e he'
  | case4 body p hp =>
    have hrun : uploadLoop be chunk body p =
        Except.error [.uploadPart p (body.take chunk)] := by
      rw [uploadLoop.eq_def, if_neg hp]
    constructor
    · intro ps' evs' heq'
      rw [hrun] at heq'
      exact absurd heq' (by simp)
    · intro evs' heq' e he
      rw [hrun] at heq'
      obtain rfl : evs' = _ := by simpa using heq'.symm
      exact ⟨p, body.take chunk, by simpa using he⟩

/-- If the loop returns parts `parts` (success), those parts are exactly the
records for the consecutive part numbers `p, …, p + |parts| - 1`, carrying
the backend ETag for each number; each of those `UploadPart` calls was
made (it appears in the trace) and was acknowledged by the backend. -/
theorem uploadLoop_ok_inv (be : Backend) (chunk : Nat) (body : List Nat) (p : Nat)
    (parts : List CompletedPart) (evs : List Event)
    (h : uploadLoop be chunk body p = Except.ok (parts, evs)) :
    parts = loopParts be p parts.length ∧
    ∀ k, p ≤ k → k < p + parts.length →
      be.uploadPartOk k = true ∧ ∃ c, Event.uploadPart k c ∈ evs := by
  induction body, p using uploadLoop.induct be chunk generalizing parts evs with
  | case1 body p hp hlast =>
    have hrun : uploadLoop be chunk body p =
        Except.ok ([⟨be.etag p, p⟩], [.uploadPart p (body.take chunk)]) := by
      rw [uploadLoop.eq_def, if_pos hp, dif_pos hlast]
    rw [hrun] at h
    obtain ⟨rfl, rfl⟩ : parts = _ ∧ evs = _ := by simpa using h.symm
    refine ⟨by simp [loopParts], fun k hk1 hk2 => ?_⟩
    have hkp : k = p := by simp at hk2; omega
    subst hkp
    exact ⟨hp, body.take chunk, by simp⟩
  | case2 body p hp hlast ps evs' heq ih =>
    have hrun : uploadLoop be chunk body p =
        Except.ok (⟨be.etag p, p⟩ :: ps, .uploadPart p (body.take chunk) :: evs') := by
      rw [uploadLoop.eq_def, if_pos hp, dif_neg hlast, heq]
    rw [hrun] at h
    obtain ⟨rfl, rfl⟩ : parts = _ ∧ evs = _ := by simpa using h.symm
    obtain ⟨hps, hrange⟩ := ih ps evs' heq
    constructor
    · rw [List.length_cons, loopParts, List.range'_succ, List.map_cons, ← loopParts]
      rw [← hps]
    · intro k hk1 hk2
      rcases Nat.eq_or_lt_of_le hk1 with rfl | hk1'
      · exact ⟨hp, body.take chunk, by simp⟩
      · obtain ⟨hok, c, hc⟩ := hrange k hk1' (by simp at hk2 ⊢; omega)
        exact ⟨hok, c, List.mem_cons_of_mem _ hc⟩
  | case3 body p hp hlast evs' heq ih =>
    have hrun : uploadLoop be chunk body p =
        Except.error (.uploadPart p (body.take chunk) :: evs') := by
      rw [uploadLoop.eq_def, if_pos hp, dif_neg hlast, heq]
    rw [hrun] at h
    exact absurd h (by simp)
  | case4 body p hp =>
    have hrun : uploadLoop be chunk body p =
        Except.error [.uploadPart p (body.take chunk)] := by
      rw [uploadLoop.eq_def, if_neg hp]
    rw [hrun] at h
    exact absurd h (by simp)

theorem loopParts_length (be : Backend) (p m : Nat) : (loopParts be p m).length = m := by
  simp [loopParts]

/-- The part numbers in `loopParts` are `p, p+1, …, p+m-1`. -/
theorem loopParts_map_partNumber (be : Backend) (p m : Nat) :
    (loopParts be p m).map CompletedPart.partNumber = List.range' p m := by
  simp [loopParts, List.map_map, Function.comp_def]

/-- A prefix of `range'` is again a `range'`. -/
theorem range'_take (p n : Nat) : ∀ (t : Nat), (List.range' p n).take t = List.range' p (min t n) := by
  induction n generalizing p with
  | zero => simp
  | succ n ihn =>
    intro t
    match t with
    | 0 => simp
    | t + 1 =>
      rw [List.range'_succ, List.take_succ_cons, Nat.succ_min_succ, List.range'_succ, ihn]

/-- `filterMap` commutes with `take` when `f` keeps every element. -/
theorem filterMap_take_of_isSome {α β : Type} (f : α → Option β) :
    ∀ (l : List α), (∀ a ∈ l, (f a).isSome) →
      ∀ t, (l.take t).filterMap f = (l.filterMap f).take t := by
  intro l
  induction l with
  | nil => simp
  | cons a l ih =>
    intro hall t
    match t with
    | 0 => simp
    | t + 1 =>
      rw [List.take_succ_cons, List.filterMap_cons, List.filterMap_cons]
      rcases hfa : f a with _ | b
      · exact absurd (hall a (List.mem_cons_self a l)) (by simp [hfa])
      · rw [List.take_succ_cons, ih (fun x hx => hall x (List.mem_cons_of_mem a hx)) t]

/-! ## Lemmas about the handler -/

/-- The branch conditions of `FileHandler`, spelled out once. -/
theorem fileHandler_ok (be : Backend) (uuid : String) (req : Request)
    (hm : req.method = "POST")
    (hct : hasPrefix req.contentType "image/" = true ∨
      hasPrefix req.contentType "video/" = true)
    (hlen : req.contentLength ≤ maxContentSize)
    (hcr : be.createOk = true)
    (hup : ∀ k, be.uploadPartOk k = true)
    (hcm : be.completeOk = true) :
    FileHandler be uuid req =
      ⟨201,
       .createMultipartUpload (uuid ++ filenameExtension req.contentType) req.contentType
         :: chunkEvents minUploadPartSize req.body 1
         ++ [.completeMultipartUpload
               (loopParts be 1 (req.body.length / minUploadPartSize + 1))],
       some (uuid ++ filenameExtension req.contentType)⟩ := by
  have hc : 0 < minUploadPartSize := by decide
  have hct' : ¬(¬hasPrefix req.contentType "image/" = true ∧
      ¬hasPrefix req.contentType "video/" = true) := by
    rcases hct with h | h <;> simp [h]
  rw [FileHandler, if_pos hm, if_neg hct', if_neg (not_lt.mpr hlen),
    if_neg (by simp [hcr] : ¬¬be.createOk = true),
    uploadLoop_ok be minUploadPartSize hc req.body 1 (fun k _ _ => hup k)]
  simp [hcm]

/-- Run of `FileHandler` when upload of part `k` fails (and all earlier parts
succeed): the validation and creation succeed, parts `1, …, k` are attempted,
and the handler stops with a 500 and no completion call. -/
theorem fileHandler_partFail (be : Backend) (uuid : String) (req : Request) (k : Nat)
    (hm : req.method = "POST")
    (hct : hasPrefix req.contentType "image/" = true ∨
      hasPrefix req.contentType "video/" = true)
    (hlen : req.contentLength ≤ maxContentSize)
    (hcr : be.createOk = true)
    (hpk : 1 ≤ k)
    (hreach : k < 1 + (req.body.length / minUploadPartSize + 1))
    (hok : ∀ j, 1 ≤ j → j < k → be.uploadPartOk j = true)
    (hfail : be.uploadPartOk k = false) :
    FileHandler be uuid req =
      ⟨500,
       .createMultipartUpload (uuid ++ filenameExtension req.contentType) req.contentType
         :: (chunkEvents minUploadPartSize req.body 1).take k,
       none⟩ := by
  have hc : 0 < minUploadPartSize := by decide
  have hct' : ¬(¬hasPrefix req.contentType "image/" = true ∧
      ¬hasPrefix req.contentType "video/" = true) := by
    rcases hct with h | h <;> simp [h]
  rw [FileHandler, if_pos hm, if_neg hct', if_neg (not_lt.mpr hlen),
    if_neg (by simp [hcr] : ¬¬be.createOk = true),
    uploadLoop_error be minUploadPartSize hc req.body 1 k hpk hreach hok hfail]
  rfl

/-- The four shapes a handler trace can take: nothing (validation failed),
just the creation call (creation failed), creation plus the calls of a
failed loop, or creation, the loop calls and the completion call. -/
theorem fileHandler_events_cases (be : Backend) (uuid : String) (req : Request) :
    (FileHandler be uuid req).events = [] ∨
    ((FileHandler be uuid req).events =
      [.createMultipartUpload (uuid ++ filenameExtension req.contentType) req.contentType]) ∨
    (∃ evs, uploadLoop be minUploadPartSize req.body 1 = .error evs ∧
      (FileHandler be uuid req).events =
        .createMultipartUpload (uuid ++ filenameExtension req.contentType) req.contentType
          :: evs) ∨
    (∃ parts evs, uploadLoop be minUploadPartSize req.body 1 = .ok (parts, evs) ∧
      (FileHandler be uuid req).events =
        .createMultipartUpload (uuid ++ filenameExtension req.contentType) req.contentType
          :: evs ++ [.completeMultipartUpload parts]) := by
  rcases hres : uploadLoop be minUploadPartSize req.body 1 with evs | ⟨parts, evs⟩ <;>
    rw [FileHandler, hres] <;>
    split_ifs <;>
    first
      | exact Or.inl rfl
      | exact Or.inr (Or.inl rfl)
      | exact Or.inr (Or.inr (Or.inl ⟨evs, rfl, rfl⟩))
      | exact Or.inr (Or.inr (Or.inr ⟨parts, evs, rfl, rfl⟩))

/-- A trace consisting only of `UploadPart` calls contains no completion. -/
theorem completeCalls_eq_nil_of_shape (l : List Event)
    (h : ∀ e ∈ l, ∃ q c, e = Event.uploadPart q c) : completeCalls l = [] := by
  rw [completeCalls, List.filterMap_eq_nil_iff]
  intro e he
  obtain ⟨q, c, rfl⟩ := h e he
  rfl

/-- The loop makes one `UploadPart` call per trace event. -/
theorem uploadPartCalls_chunkEvents_length (chunk : Nat) (body : List Nat) (p : Nat) :
    (uploadPartCalls (chunkEvents chunk body p)).length = (chunkEvents chunk body p).length := by
  have h := congrArg List.length (uploadPartCalls_chunkEvents_fst chunk body p)
  simpa using h

/-- The loop trace on the empty body: a single zero-length `UploadPart`. -/
theorem chunkEvents_nil (chunk p : Nat) :
    chunkEvents chunk [] p = [Event.uploadPart p []] := by
  rw [chunkEvents, if_pos (by simp), List.take_nil]

/-- The loop trace on a 5 MiB body: a full part and a zero-length part. -/
theorem chunkEvents_5MiB :
    chunkEvents minUploadPartSize (List.replicate 5242880 0) 1 =
      [Event.uploadPart 1 (List.replicate 5242880 0), Event.uploadPart 2 []] := by
  rw [chunkEvents, if_neg (by simp only [List.length_replicate]; decide)]
  rw [List.take_replicate, List.drop_replicate]
  norm_num [minUploadPartSize]
  exact chunkEvents_nil _ _

/-- The loop trace on a 12 MiB body: 5 MiB, 5 MiB and 2 MiB parts. -/
theorem chunkEvents_12MiB :
    chunkEvents minUploadPartSize (List.replicate 12582912 0) 1 =
      [Event.uploadPart 1 (List.replicate 5242880 0),
       Event.uploadPart 2 (List.replicate 5242880 0),
       Event.uploadPart 3 (List.replicate 2097152 0)] := by
  rw [chunkEvents, if_neg (by simp only [List.length_replicate]; decide)]
  rw [List.take_replicate, List.drop_replicate]
  rw [chunkEvents, if_neg (by simp only [List.length_replicate]; decide)]
  rw [List.take_replicate, List.drop_replicate]
  rw [chunkEvents, if_pos (by simp only [List.length_replicate]; decide)]
  rw [List.take_replicate]
  norm_num [minUploadPartSize]

theorem uploadPartCalls_cons_create (key ct : String) (l : List Event) :
    uploadPartCalls (Event.createMultipartUpload key ct :: l) = uploadPartCalls l := by
  simp [uploadPartCalls]

theorem uploadPartCalls_append_complete (l : List Event) (ps : List CompletedPart) :
    uploadPartCalls (l ++ [Event.completeMultipartUpload ps]) = uploadPartCalls l := by
  simp [uploadPartCalls]

theorem completeCalls_cons_create (key ct : String) (l : List Event) :
    completeCalls (Event.createMultipartUpload key ct :: l) = completeCalls l := by
  simp [completeCalls]

theorem completeCalls_append_complete (l : List Event) (ps : List CompletedPart) :
    completeCalls (l ++ [Event.completeMultipartUpload ps]) = completeCalls l ++ [ps] := by
  simp [completeCalls]

theorem uploadPartCalls_take (l : List Event)
    (h : ∀ e ∈ l, ∃ q c, e = Event.uploadPart q c) (t : Nat) :
    uploadPartCalls (l.take t) = (uploadPartCalls l).take t := by
  rw [uploadPartCalls, uploadPartCalls]
  refine filterMap_take_of_isSome _ l (fun a ha => ?_) t
  obtain ⟨q, c, rfl⟩ := h a ha
  rfl

theorem uploadPartCalls_append (l1 l2 : List Event) :
    uploadPartCalls (l1 ++ l2) = uploadPartCalls l1 ++ uploadPartCalls l2 := by
  simp [uploadPartCalls]

theorem completeCalls_append (l1 l2 : List Event) :
    completeCalls (l1 ++ l2) = completeCalls l1 ++ completeCalls l2 := by
  simp [completeCalls]

theorem uploadPartCalls_complete_singleton (ps : List CompletedPart) :
    uploadPartCalls [Event.completeMultipartUpload ps] = [] := rfl

theorem completeCalls_complete_singleton (ps : List CompletedPart) :
    completeCalls [Event.completeMultipartUpload ps] = [ps] := rfl

/-! ## The claims -/

/-- C9: for every request whose method is not POST, the handler responds 405
Method Not Allowed and makes zero backend calls. -/
theorem C9_methodNotAllowed (be : Backend) (uuid : String) (req : Request)
    (hm : req.method ≠ "POST") :
    FileHandler be uuid req = ⟨405, [], none⟩ := by
  rw [FileHandler, if_neg hm]

theorem C9_methodNotAllowed_witness :
    reqGet.method ≠ "POST" ∧ FileHandler beAllOk "u" reqGet = ⟨405, [], none⟩ :=
  ⟨by decide, C9_methodNotAllowed beAllOk "u" reqGet (by decide)⟩

/-- C6: for every POST request whose content type begins with neither
`image/` nor `video/`, the handler responds 415 Unsupported Media Type and
makes zero backend calls. -/
theorem C6_unsupportedMediaType (be : Backend) (uuid : String) (req : Request)
    (hm : req.method = "POST")
    (h1 : hasPrefix req.contentType "image/" = false)
    (h2 : hasPrefix req.contentType "video/" = false) :
    FileHandler be uuid req = ⟨415, [], none⟩ := by
  rw [FileHandler, if_pos hm, if_pos (by simp [h1, h2])]

theorem C6_unsupportedMediaType_witness :
    (reqText.method = "POST" ∧ hasPrefix reqText.contentType "image/" = false ∧
      hasPrefix reqText.contentType "video/" = false) ∧
    FileHandler beAllOk "u" reqText = ⟨415, [], none⟩ :=
  ⟨⟨rfl, by decide, by decide⟩,
   C6_unsupportedMediaType beAllOk "u" reqText rfl (by decide) (by decide)⟩

/-- C7 counterexample: a POST with `text/plain` content type and a declared
length above 2500 MiB gets 415 (the content-type check fires first), not the
413 the claim promises for every over-long POST. -/
theorem C7_counterexample :
    reqBigText.contentLength > maxContentSize ∧
    (FileHandler beAllOk "u" reqBigText).status = 415 ∧
    (FileHandler beAllOk "u" reqBigText).status ≠ 413 := by
  have h : FileHandler beAllOk "u" reqBigText = ⟨415, [], none⟩ := by
    rw [FileHandler, if_pos (show reqBigText.method = "POST" from rfl), if_pos (by decide)]
  refine ⟨by decide, ?_, ?_⟩ <;> rw [h] <;> decide

/-- C7 (amended): for every POST request with a content type matching
`image/*` or `video/*` whose declared content length exceeds 2500 MiB, the
handler responds 413 Request Entity Too Large and makes zero backend
calls. -/
theorem C7_payloadTooLarge (be : Backend) (uuid : String) (req : Request)
    (hm : req.method = "POST")
    (hct : hasPrefix req.contentType "image/" = true ∨
      hasPrefix req.contentType "video/" = true)
    (hlen : req.contentLength > maxContentSize) :
    FileHandler be uuid req = ⟨413, [], none⟩ := by
  have hct' : ¬(¬hasPrefix req.contentType "image/" = true ∧
      ¬hasPrefix req.contentType "video/" = true) := by
    rcases hct with h | h <;> simp [h]
  rw [FileHandler, if_pos hm, if_neg hct', if_pos hlen]

theorem C7_payloadTooLarge_witness :
    (reqBigImage.method = "POST" ∧ hasPrefix reqBigImage.contentType "image/" = true ∧
      reqBigImage.contentLength > maxContentSize) ∧
    FileHandler beAllOk "u" reqBigImage = ⟨413, [], none⟩ :=
  ⟨⟨rfl, by decide, by decide⟩,
   C7_payloadTooLarge beAllOk "u" reqBigImage rfl (Or.inl (by decide)) (by decide)⟩

/-- C10: the content-type-to-extension table maps the exact string
`"video/mp4"` to the empty extension — only `"video/mp4 "` (trailing space)
maps to `".mp4"` — so the object key of a `video/mp4` upload is the bare UUID
with no suffix, while the seven other listed types get their extensions. -/
theorem C10_extensionTable :
    filenameExtension "video/mp4" = "" ∧
    filenameExtension "video/mp4 " = ".mp4" ∧
    filenameExtension "image/gif" = ".gif" ∧
    filenameExtension "image/jpeg" = ".jpeg" ∧
    filenameExtension "image/png" = ".png" ∧
    filenameExtension "image/tiff" = ".tiff" ∧
    filenameExtension "video/quicktime" = ".mov" ∧
    filenameExtension "video/mpeg" = ".mpeg" ∧
    filenameExtension "video/webm" = ".webm" ∧
    (FileHandler beAllOk "u" reqEmptyMp4).responseKey = some "u" := by
  refine ⟨rfl, rfl, rfl, rfl, rfl, rfl, rfl, rfl, rfl, ?_⟩
  rw [fileHandler_ok beAllOk "u" reqEmptyMp4 rfl (Or.inr (by decide)) (by decide) rfl
    (fun _ => rfl) rfl]
  rfl

/-- C1 counterexample: a 5 MiB body — an exact multiple of the 5 MiB chunk
size — is uploaded in 2 parts (one full, one empty trailing part), not the
`ceil(n / chunkSize) = 1` parts the claim states: after an exact-length
`io.CopyN` the loop runs once more, reads 0 bytes, and uploads the empty
buffer as a final part before stopping. -/
theorem C1_counterexample :
    (uploadPartCalls (FileHandler beAllOk "u" reqMultiple).events).length = 2 ∧
    (uploadPartCalls (FileHandler beAllOk "u" reqMultiple).events).length ≠
      (reqMultiple.body.length + minUploadPartSize - 1) / minUploadPartSize := by
  have h : (uploadPartCalls (FileHandler beAllOk "u" reqMultiple).events).length = 2 := by
    rw [fileHandler_ok beAllOk "u" reqMultiple rfl (Or.inl (by decide)) (by decide) rfl
      (fun _ => rfl) rfl]
    dsimp only
    rw [uploadPartCalls_append, uploadPartCalls_cons_create,
      uploadPartCalls_complete_singleton, List.append_nil,
      show reqMultiple.body = List.replicate 5242880 0 from rfl, chunkEvents_5MiB]
    rfl
  refine ⟨h, ?_⟩
  rw [h, show reqMultiple.body = List.replicate 5242880 0 from rfl]
  simp only [List.length_replicate]
  decide

/-- C1 (amended): for every request with a content type matching `image/*`
or `video/*` and a body of `n ≥ 0` bytes, with every backend call
succeeding, the handler performs `n / chunkSize + 1` upload-part calls —
that is `ceil(n / chunkSize)` when `n > 0` is not a multiple of `chunkSize`,
one extra zero-length trailing call when `n` is a positive multiple of
`chunkSize`, and exactly one zero-length upload-part call when `n == 0` —
and the final complete-multipart call receives exactly that many part
records, with part numbers strictly increasing starting at 1. -/
theorem C1_partCount (be : Backend) (uuid : String) (req : Request)
    (hm : req.method = "POST")
    (hct : hasPrefix req.contentType "image/" = true ∨
      hasPrefix req.contentType "video/" = true)
    (hlen : req.contentLength ≤ maxContentSize)
    (hcr : be.createOk = true)
    (hup : ∀ k, be.uploadPartOk k = true)
    (hcm : be.completeOk = true) :
    (uploadPartCalls (FileHandler be uuid req).events).length
        = req.body.length / minUploadPartSize + 1 ∧
    (req.body.length = 0 →
      uploadPartCalls (FileHandler be uuid req).events = [(1, [])]) ∧
    ∃ parts, completeCalls (FileHandler be uuid req).events = [parts] ∧
      parts.length = req.body.length / minUploadPartSize + 1 ∧
      parts.map CompletedPart.partNumber =
        List.range' 1 (req.body.length / minUploadPartSize + 1) := by
  have hc : 0 < minUploadPartSize := by decide
  rw [fileHandler_ok be uuid req hm hct hlen hcr hup hcm]
  dsimp only
  refine ⟨?_, ?_, ?_⟩
  · rw [uploadPartCalls_append, uploadPartCalls_cons_create,
      uploadPartCalls_complete_singleton, List.append_nil,
      uploadPartCalls_chunkEvents_length, chunkEvents_length _ hc]
  · intro h0
    rw [List.length_eq_zero.mp h0, chunkEvents_nil]
    simp [uploadPartCalls]
  · refine ⟨loopParts be 1 (req.body.length / minUploadPartSize + 1), ?_,
      loopParts_length _ _ _, loopParts_map_partNumber _ _ _⟩
    rw [completeCalls_append, completeCalls_cons_create,
      completeCalls_eq_nil_of_shape _ (chunkEvents_shape _ _ _),
      completeCalls_complete_singleton, List.nil_append]

theorem C1_partCount_witness :
    (reqEmptyPng.method = "POST" ∧ hasPrefix reqEmptyPng.contentType "image/" = true ∧
      reqEmptyPng.contentLength ≤ maxContentSize ∧ beAllOk.createOk = true ∧
      beAllOk.completeOk = true) ∧
    ((uploadPartCalls (FileHandler beAllOk "u" reqEmptyPng).events).length
        = reqEmptyPng.body.length / minUploadPartSize + 1 ∧
     (reqEmptyPng.body.length = 0 →
       uploadPartCalls (FileHandler beAllOk "u" reqEmptyPng).events = [(1, [])]) ∧
     ∃ parts, completeCalls (FileHandler beAllOk "u" reqEmptyPng).events = [parts] ∧
       parts.length = reqEmptyPng.body.length / minUploadPartSize + 1 ∧
       parts.map CompletedPart.partNumber =
         List.range' 1 (reqEmptyPng.body.length / minUploadPartSize + 1)) :=
  ⟨⟨rfl, by decide, by decide, rfl, rfl⟩,
   C1_partCount beAllOk "u" reqEmptyPng rfl (Or.inl (by decide)) (by decide) rfl
     (fun _ => rfl) rfl⟩

/-- C2: a 12 MiB `image/png` body with all backend calls succeeding yields
exactly the trace create, part 1 (5 MiB), part 2 (5 MiB), part 3 (2 MiB),
complete with those 3 part records, and a 201 response whose key ends in
`".png"`. -/
theorem C2_twelveMiB :
    FileHandler beAllOk "u" req12MiB =
      ⟨201,
       (Event.createMultipartUpload ("u" ++ ".png") "image/png" ::
        [Event.uploadPart 1 (List.replicate 5242880 0),
         Event.uploadPart 2 (List.replicate 5242880 0),
         Event.uploadPart 3 (List.replicate 2097152 0)]) ++
        [Event.completeMultipartUpload [⟨"etag1", 1⟩, ⟨"etag2", 2⟩, ⟨"etag3", 3⟩]],
       some ("u" ++ ".png")⟩ ∧
    hasSuffix ("u" ++ ".png") ".png" = true := by
  constructor
  · rw [fileHandler_ok beAllOk "u" req12MiB rfl (Or.inl (by decide)) (by decide) rfl
      (fun _ => rfl) rfl]
    rw [show req12MiB.body = List.replicate 12582912 0 from rfl, chunkEvents_12MiB,
      show (List.replicate 12582912 (0 : Nat)).length / minUploadPartSize + 1 = 3 by
        simp only [List.length_replicate]; decide,
      show loopParts beAllOk 1 3 = [⟨"etag1", 1⟩, ⟨"etag2", 2⟩, ⟨"etag3", 3⟩] by decide]
    rfl
  · decide

/-- C3: with a valid content type, an entirely empty (zero-byte) body and a
fully successful backend, the handler makes exactly one zero-length
upload-part call, one complete-multipart call with that single part record,
and responds 201 with the object key. -/
theorem C3_emptyBody (be : Backend) (uuid : String) (req : Request)
    (hm : req.method = "POST")
    (hct : hasPrefix req.contentType "image/" = true ∨
      hasPrefix req.contentType "video/" = true)
    (hlen : req.contentLength ≤ maxContentSize)
    (hcr : be.createOk = true)
    (hup : ∀ k, be.uploadPartOk k = true)
    (hcm : be.completeOk = true)
    (hbody : req.body = []) :
    (FileHandler be uuid req).status = 201 ∧
    uploadPartCalls (FileHandler be uuid req).events = [(1, [])] ∧
    completeCalls (FileHandler be uuid req).events = [[⟨be.etag 1, 1⟩]] ∧
    (FileHandler be uuid req).responseKey =
      some (uuid ++ filenameExtension req.contentType) := by
  rw [fileHandler_ok be uuid req hm hct hlen hcr hup hcm, hbody]
  refine ⟨rfl, ?_, ?_, rfl⟩
  · rw [show ([] : List Nat).length / minUploadPartSize + 1 = 1 by decide]
    dsimp only
    rw [chunkEvents_nil, uploadPartCalls_append, uploadPartCalls_cons_create,
      uploadPartCalls_complete_singleton, List.append_nil]
    rfl
  · rw [show ([] : List Nat).length / minUploadPartSize + 1 = 1 by decide]
    dsimp only
    rw [chunkEvents_nil, completeCalls_append, completeCalls_cons_create,
      completeCalls_complete_singleton,
      show loopParts be 1 1 = [⟨be.etag 1, 1⟩] by simp [loopParts, List.range'_one]]
    rfl

theorem C3_emptyBody_witness :
    (reqEmptyMp4.method = "POST" ∧ hasPrefix reqEmptyMp4.contentType "video/" = true ∧
      reqEmptyMp4.contentLength ≤ maxContentSize ∧ beAllOk.createOk = true ∧
      beAllOk.completeOk = true ∧ reqEmptyMp4.body = []) ∧
    ((FileHandler beAllOk "u" reqEmptyMp4).status = 201 ∧
     uploadPartCalls (FileHandler beAllOk "u" reqEmptyMp4).events = [(1, [])] ∧
     completeCalls (FileHandler beAllOk "u" reqEmptyMp4).events = [[⟨beAllOk.etag 1, 1⟩]] ∧
     (FileHandler beAllOk "u" reqEmptyMp4).responseKey =
       some ("u" ++ filenameExtension reqEmptyMp4.contentType)) :=
  ⟨⟨rfl, by decide, by decide, rfl, rfl, rfl⟩,
   C3_emptyBody beAllOk "u" reqEmptyMp4 rfl (Or.inr (by decide)) (by decide) rfl
     (fun _ => rfl) rfl rfl⟩

/-- C4: if the upload of part `k` fails (all earlier parts succeeding, `k`
within the parts the body yields), the handler makes no complete-multipart
call, attempts no part beyond `k`, and responds 500: the `UploadPart` calls
made are exactly parts `1, …, k`. -/
theorem C4_uploadPartFailure (be : Backend) (uuid : String) (req : Request) (k : Nat)
    (hm : req.method = "POST")
    (hct : hasPrefix req.contentType "image/" = true ∨
      hasPrefix req.contentType "video/" = true)
    (hlen : req.contentLength ≤ maxContentSize)
    (hcr : be.createOk = true)
    (hpk : 1 ≤ k)
    (hreach : k < 1 + (req.body.length / minUploadPartSize + 1))
    (hok : ∀ j, 1 ≤ j → j < k → be.uploadPartOk j = true)
    (hfail : be.uploadPartOk k = false) :
    (FileHandler be uuid req).status = 500 ∧
    completeCalls (FileHandler be uuid req).events = [] ∧
    (uploadPartCalls (FileHandler be uuid req).events).map Prod.fst =
      List.range' 1 k := by
  have hc : 0 < minUploadPartSize := by decide
  rw [fileHandler_partFail be uuid req k hm hct hlen hcr hpk hreach hok hfail]
  refine ⟨rfl, ?_, ?_⟩
  · dsimp only
    rw [completeCalls_cons_create]
    exact completeCalls_eq_nil_of_shape _ (fun e he =>
      chunkEvents_shape _ _ _ e (List.mem_of_mem_take he))
  · dsimp only
    rw [uploadPartCalls_cons_create,
      uploadPartCalls_take _ (chunkEvents_shape _ _ _) k, List.map_take,
      uploadPartCalls_chunkEvents_fst, chunkEvents_length _ hc, range'_take,
      Nat.min_eq_left (by omega)]

theorem C4_uploadPartFailure_witness :
    (reqEmptyMp4.method = "POST" ∧ hasPrefix reqEmptyMp4.contentType "video/" = true ∧
      reqEmptyMp4.contentLength ≤ maxContentSize ∧ bePartsFail.createOk = true ∧
      1 < 1 + (reqEmptyMp4.body.length / minUploadPartSize + 1) ∧
      bePartsFail.uploadPartOk 1 = false) ∧
    ((FileHandler bePartsFail "u" reqEmptyMp4).status = 500 ∧
     completeCalls (FileHandler bePartsFail "u" reqEmptyMp4).events = [] ∧
     (uploadPartCalls (FileHandler bePartsFail "u" reqEmptyMp4).events).map Prod.fst =
       List.range' 1 1) :=
  ⟨⟨rfl, by decide, by decide, rfl, by decide, rfl⟩,
   C4_uploadPartFailure bePartsFail "u" reqEmptyMp4 1 rfl (Or.inr (by decide)) (by decide)
     rfl (le_refl 1) (by decide)
     (fun j hj1 hj2 => absurd hj2 (Nat.not_lt.mpr hj1)) rfl⟩

/-- C5: in every run whose trace contains a complete-multipart call, the part
records it carries have part numbers exactly `1, 2, …, m` (consecutive, in
order, no gaps), and the ETag of each record is the one the backend returned
when acknowledging the upload of exactly that part number — an upload made
(it appears in the trace) and succeeded. -/
theorem C5_completedPartsIntegrity (be : Backend) (uuid : String) (req : Request)
    (parts : List CompletedPart)
    (h : Event.completeMultipartUpload parts ∈ (FileHandler be uuid req).events) :
    parts.map CompletedPart.partNumber = List.range' 1 parts.length ∧
    ∀ pr ∈ parts, pr.etag = be.etag pr.partNumber ∧
      be.uploadPartOk pr.partNumber = true ∧
      ∃ c, Event.uploadPart pr.partNumber c ∈ (FileHandler be uuid req).events := by
  rcases fileHandler_events_cases be uuid req with hev | hev | ⟨evs, hres, hev⟩ |
    ⟨parts', evs, hres, hev⟩
  · rw [hev] at h
    simp at h
  · rw [hev] at h
    simp at h
  · rw [hev] at h
    rcases List.mem_cons.mp h with hco | hin
    · exact absurd hco (by simp)
    · obtain ⟨q, c, hqc⟩ :=
        (uploadLoop_trace_shape be minUploadPartSize req.body 1).2 evs hres _ hin
      exact absurd hqc (by simp)
  · rw [hev] at h ⊢
    have hparts : parts = parts' := by
      rcases List.mem_append.mp h with hin | hlast
      · rcases List.mem_cons.mp hin with hco | hin'
        · exact absurd hco (by simp)
        · obtain ⟨q, c, hqc⟩ :=
            (uploadLoop_trace_shape be minUploadPartSize req.body 1).1 parts' evs hres _ hin'
          exact absurd hqc (by simp)
      · simpa using hlast
    subst hparts
    obtain ⟨hL, hrange⟩ := uploadLoop_ok_inv be minUploadPartSize req.body 1 parts evs hres
    constructor
    · conv_lhs => rw [hL]
      rw [loopParts_map_partNumber]
    · intro pr hpr
      rw [hL] at hpr
      obtain ⟨kk, hkk, rfl⟩ := List.mem_map.mp hpr
      obtain ⟨hk1, hk2⟩ := List.mem_range'_1.mp hkk
      obtain ⟨hok, c, hc⟩ := hrange kk hk1 hk2
      exact ⟨rfl, hok, c,
        List.mem_append_left _ (List.mem_cons_of_mem _ hc)⟩

theorem C5_completedPartsIntegrity_witness :
    (Event.completeMultipartUpload partsGif ∈ (FileHandler beAllOk "u" reqEmptyGif).events) ∧
    (partsGif.map CompletedPart.partNumber = List.range' 1 partsGif.length ∧
     ∀ pr ∈ partsGif, pr.etag = beAllOk.etag pr.partNumber ∧
       beAllOk.uploadPartOk pr.partNumber = true ∧
       ∃ c, Event.uploadPart pr.partNumber c ∈ (FileHandler beAllOk "u" reqEmptyGif).events) := by
  have hev : (FileHandler beAllOk "u" reqEmptyGif).events =
      [Event.createMultipartUpload "u.gif" "image/gif",
       Event.uploadPart 1 [], Event.completeMultipartUpload partsGif] := by
    rw [fileHandler_ok beAllOk "u" reqEmptyGif rfl (Or.inl (by decide)) (by decide) rfl
      (fun _ => rfl) rfl]
    dsimp only
    rw [show reqEmptyGif.body = ([] : List Nat) from rfl, chunkEvents_nil]
    decide
  have hmem : Event.completeMultipartUpload partsGif ∈
      (FileHandler beAllOk "u" reqEmptyGif).events := by
    rw [hev]
    decide
  exact ⟨hmem, C5_completedPartsIntegrity beAllOk "u" reqEmptyGif partsGif hmem⟩

/-- C8: a POST with valid content type and an unknown declared length
(negative `ContentLength`) is not rejected by the size check: the handler
does not answer 413 and goes on to initiate the multipart upload (its first
backend call is the creation call). -/
theorem C8_unknownLengthPasses (be : Backend) (uuid : String) (req : Request)
    (hm : req.method = "POST")
    (hct : hasPrefix req.contentType "image/" = true ∨
      hasPrefix req.contentType "video/" = true)
    (hlen : req.contentLength < 0) :
    (FileHandler be uuid req).status ≠ 413 ∧
    ∃ rest, (FileHandler be uuid req).events =
      Event.createMultipartUpload (uuid ++ filenameExtension req.contentType)
        req.contentType :: rest := by
  have hct' : ¬(¬hasPrefix req.contentType "image/" = true ∧
      ¬hasPrefix req.contentType "video/" = true) := by
    rcases hct with h | h <;> simp [h]
  have hlen' : ¬(req.contentLength > maxContentSize) := by
    have hnn : (0 : Int) ≤ maxContentSize := by decide
    omega
  rw [FileHandler, if_pos hm, if_neg hct', if_neg hlen']
  by_cases hcr : be.createOk = true
  · rw [if_neg (by simp [hcr])]
    rcases hres : uploadLoop be minUploadPartSize req.body 1 with evs | ⟨parts, evs⟩
    · dsimp only
      exact ⟨by decide, evs, rfl⟩
    · dsimp only
      by_cases hcm : be.completeOk = true
      · rw [if_pos hcm]
        exact ⟨by dsimp only; decide, evs ++ [Event.completeMultipartUpload parts], rfl⟩
      · rw [if_neg hcm]
        exact ⟨by dsimp only; decide, evs ++ [Event.completeMultipartUpload parts], rfl⟩
  · rw [if_pos hcr]
    exact ⟨by dsimp only; decide, [], rfl⟩

theorem C8_unknownLengthPasses_witness :
    (reqUnknownLen.method = "POST" ∧ hasPrefix reqUnknownLen.contentType "image/" = true ∧
      reqUnknownLen.contentLength < 0) ∧
    ((FileHandler beAllOk "u" reqUnknownLen).status ≠ 413 ∧
     ∃ rest, (FileHandler beAllOk "u" reqUnknownLen).events =
       Event.createMultipartUpload ("u" ++ filenameExtension reqUnknownLen.contentType)
         reqUnknownLen.contentType :: rest) :=
  ⟨⟨rfl, by decide, by decide⟩,
   C8_unknownLengthPasses beAllOk "u" reqUnknownLen rfl (Or.inl (by decide)) (by decide)⟩
